import Mathlib

/-!
Shallow embedding of `src/bextutil/inc/BextBaseBundleExtension.h`
(`CBextBaseBundleExtension`), the reference-counted COM-style base class for
bundle extensions.

The C++ object is modelled by an explicit state record `ExtState`.  The
`long m_cReferences` field is modelled by `Long`, integers in
[-2^31, 2^31) with the wrapping two's-complement arithmetic that the
`InterlockedIncrement`/`InterlockedDecrement` primitives perform on a
32-bit `long` (incrementing `INT32_MAX` wraps to `INT32_MIN`).  The
engine's own reference count is external state; it is carried in the same
record (`engineRefs`) so that the constructor's `pEngine->AddRef()` and the
destructor's `ReleaseNullObject(m_pEngine)` can be observed.  `delete this`
is modelled by the `destroyed` flag together with the destructor's effects
(the engine reference is released and nulled, the data-path string is
freed).  The `Interlocked` primitives are modelled as sequential
increment/decrement steps (each atomic operation is one step of the
semantics).  Nullable pointers are modelled with `Option`: a `LPVOID*`
output parameter is `Option (Option Handle)` (`none` = the pointer itself
is null, `some v` = it points at a slot currently holding `v`), and the
`BUNDLE_EXTENSION_CREATE_ARGS*` parameter of `Initialize` is
`Option BUNDLE_EXTENSION_CREATE_ARGS`; since `Initialize` dereferences it
unconditionally, the model returns `none` (no defined result) for a null
argument.
-/

namespace Bextutil

/-- Two's-complement wraparound of an integer into the range of a signed
32-bit `long`, [-2^31, 2^31). -/
def wrap32 (n : Int) : Int := (n + 2 ^ 31) % 2 ^ 32 - 2 ^ 31

/-- A value of the signed 32-bit C type `long`: an integer in
[-2^31, 2^31).  Addition and subtraction wrap, as the `Interlocked`
primitives do on overflow. -/
structure Long where
  val : Int
  bounds : -2 ^ 31 ≤ val ∧ val < 2 ^ 31

instance : DecidableEq Long := fun a b =>
  if h : a.val = b.val then isTrue (by cases a; cases b; cases h; rfl)
  else isFalse (fun hab => h (congrArg Long.val hab))

/-- Wrap an integer into a `Long` value. -/
def Long.ofInt (n : Int) : Long := ⟨wrap32 n, by unfold wrap32; omega⟩

instance : Add Long := ⟨fun a b => Long.ofInt (a.val + b.val)⟩

instance : Sub Long := ⟨fun a b => Long.ofInt (a.val - b.val)⟩

instance : LT Long := ⟨fun a b => a.val < b.val⟩

instance (a b : Long) : Decidable (a < b) := inferInstanceAs (Decidable (a.val < b.val))

instance (n : Nat) : OfNat Long n := ⟨Long.ofInt n⟩

instance : Repr Long := ⟨fun a n => reprPrec a.val n⟩

/-- Status codes (HRESULT values) that appear in `BextBaseBundleExtension.h`. -/
inductive HRESULT where
  | S_OK
  | E_INVALIDARG
  | E_NOINTERFACE
  | E_NOTIMPL
  | E_OUTOFMEMORY
  deriving DecidableEq, Repr

/-- Interface identifiers compared by `QueryInterface`: the two recognised
ones (`__uuidof(IBundleExtension)` and `IID_IUnknown`) and all others. -/
inductive IID where
  | IID_IBundleExtension
  | IID_IUnknown
  | other (code : Nat)
  deriving DecidableEq, Repr

/-- The typed self-handle stored into `*ppvObject` on a successful
`QueryInterface`: `static_cast<IBundleExtension*>(this)` or
`static_cast<IUnknown*>(this)`.  Both denote the current object. -/
inductive Handle where
  | asIBundleExtension
  | asIUnknown
  deriving DecidableEq, Repr

/-- The state of one `CBextBaseBundleExtension` object, plus the reference
count of the hosting engine (`engineRefs`) and a `destroyed` flag recording
whether `delete this` has run. -/
structure ExtState where
  /-- `long m_cReferences`: a wrapping 32-bit signed count. -/
  m_cReferences : Long
  /-- Whether `IBundleExtensionEngine* m_pEngine` is non-null. -/
  m_pEngine : Bool
  /-- `LPWSTR m_sczBundleExtensionDataPath` (`none` = NULL). -/
  m_sczBundleExtensionDataPath : Option String
  /-- The hosting engine's own reference count (external state). -/
  engineRefs : Int
  /-- Whether `delete this` has run. -/
  destroyed : Bool
  deriving DecidableEq, Repr

/-- The constructor `CBextBaseBundleExtension(pEngine)`, run with the
engine's reference count at `R`: sets `m_cReferences = 1`, calls
`pEngine->AddRef()`, stores the engine pointer, and nulls the data path. -/
def construct (R : Int) : ExtState :=
  { m_cReferences := 1
    m_pEngine := true
    m_sczBundleExtensionDataPath := none
    engineRefs := R + 1
    destroyed := false }

/-- The destructor `~CBextBaseBundleExtension` together with the
deallocation performed by `delete this`: `ReleaseNullObject(m_pEngine)`
(release the engine reference if non-null, then null it) and
`ReleaseStr(m_sczBundleExtensionDataPath)` (free the string). -/
def destructor (s : ExtState) : ExtState :=
  { s with
    engineRefs := if s.m_pEngine then s.engineRefs - 1 else s.engineRefs
    m_pEngine := false
    m_sczBundleExtensionDataPath := none
    destroyed := true }

/-- `AddRef`: `return ::InterlockedIncrement(&this->m_cReferences);`.
The increment wraps on overflow, as the 32-bit primitive does.  Returns
the new count paired with the updated state. -/
def AddRef (s : ExtState) : Long × ExtState :=
  let n := s.m_cReferences + 1
  (n, { s with m_cReferences := n })

/-- `Release`: decrement (wrapping, via `InterlockedDecrement`); if the
result is positive return it, otherwise run the destructor (`delete this`)
and return 0. -/
def Release (s : ExtState) : Long × ExtState :=
  let l := s.m_cReferences - 1
  if 0 < l then
    (l, { s with m_cReferences := l })
  else
    (0, destructor { s with m_cReferences := l })

/-- `QueryInterface(riid, ppvObject)`.  `ppvObject = none` models a null
output-slot pointer (rejected with `E_INVALIDARG` before anything else);
`ppvObject = some v` models a valid slot currently holding `v`.  The result
is the returned `HRESULT`, the updated object state, and the slot's
contents after the call (`none` when the pointer was null and the slot was
never written).  The code first clears the slot (`*ppvObject = NULL`), then
on an IID match stores the typed self-handle and calls `AddRef()`. -/
def QueryInterface (s : ExtState) (ppvObject : Option (Option Handle)) (riid : IID) :
    HRESULT × ExtState × Option (Option Handle) :=
  match ppvObject with
  | none => (HRESULT.E_INVALIDARG, s, none)
  | some _ =>
    if riid = IID.IID_IBundleExtension then
      (HRESULT.S_OK, (AddRef s).2, some (some Handle.asIBundleExtension))
    else if riid = IID.IID_IUnknown then
      (HRESULT.S_OK, (AddRef s).2, some (some Handle.asIUnknown))
    else
      (HRESULT.E_NOINTERFACE, s, some none)

/-- The default `Search(wzId, wzVariable)`: `return E_NOTIMPL;`. -/
def Search (s : ExtState) (_wzId _wzVariable : String) : HRESULT × ExtState :=
  (HRESULT.E_NOTIMPL, s)

/-- The default `BundleExtensionProc(message, pvArgs, pvResults, pvContext)`:
`return E_NOTIMPL;`.  The message and the opaque buffers are uninterpreted. -/
def BundleExtensionProc (s : ExtState) (_message : Nat)
    (_pvArgs _pvResults _pvContext : Option Nat) : HRESULT × ExtState :=
  (HRESULT.E_NOTIMPL, s)

/-- `BUNDLE_EXTENSION_CREATE_ARGS`; only the field read by this layer. -/
structure BUNDLE_EXTENSION_CREATE_ARGS where
  wzBundleExtensionDataPath : String
  deriving DecidableEq, Repr

/-- `StrAllocString(psczOut, wzSource, 0)`: deep-copies `wzSource`.  The
allocator's success is an explicit input `allocOk`; on failure the function
reports `E_OUTOFMEMORY` and the destination is left unchanged. -/
def StrAllocString (allocOk : Bool) (wzSource : String) : Except HRESULT String :=
  if allocOk then Except.ok wzSource else Except.error HRESULT.E_OUTOFMEMORY

/-- `Initialize(pCreateArgs)`: copies
`pCreateArgs->wzBundleExtensionDataPath` into
`m_sczBundleExtensionDataPath` via `StrAllocString` and returns the
resulting HRESULT (`ExitOnFailure` just jumps to the return).  The code
dereferences `pCreateArgs` with no null check, so a null argument
(`pCreateArgs = none`) has no defined result: the model returns `none`. -/
def Initialize (allocOk : Bool) (s : ExtState)
    (pCreateArgs : Option BUNDLE_EXTENSION_CREATE_ARGS) :
    Option (HRESULT × ExtState) :=
  match pCreateArgs with
  | none => none
  | some args =>
    match StrAllocString allocOk args.wzBundleExtensionDataPath with
    | Except.ok scz =>
      some (HRESULT.S_OK, { s with m_sczBundleExtensionDataPath := some scz })
    | Except.error hr => some (hr, s)

/-- Whether `QueryInterface` with a valid slot succeeds for `riid`. -/
def qiSucceeds (riid : IID) : Bool :=
  match riid with
  | IID.IID_IBundleExtension => true
  | IID.IID_IUnknown => true
  | IID.other _ => false

/-! ### Trace semantics for the reference-count lifetime -/

/-- One client call affecting the reference count: `AddRef`, `Release`, or
`QueryInterface` with a valid (non-null) output slot. -/
inductive Op where
  | addRef
  | release
  | queryInterface (riid : IID)
  deriving DecidableEq, Repr

/-- The state transition of one call (return values discarded). -/
def stepOp (op : Op) (s : ExtState) : ExtState :=
  match op with
  | Op.addRef => (AddRef s).2
  | Op.release => (Release s).2
  | Op.queryInterface riid => (QueryInterface s (some none) riid).2.1

/-- Run a sequence of calls left to right. -/
def runOps (ops : List Op) (s : ExtState) : ExtState :=
  match ops with
  | [] => s
  | op :: rest => runOps rest (stepOp op s)

/-- The number of reference-count increments a call sequence performs
(each `AddRef`, plus each successful `QueryInterface`). -/
def incCount (ops : List Op) : Int :=
  match ops with
  | [] => 0
  | Op.addRef :: rest => 1 + incCount rest
  | Op.release :: rest => incCount rest
  | Op.queryInterface riid :: rest => (if qiSucceeds riid then 1 else 0) + incCount rest

/-- The number of `Release` calls in a call sequence. -/
def relCount (ops : List Op) : Int :=
  match ops with
  | [] => 0
  | Op.release :: rest => 1 + relCount rest
  | Op.addRef :: rest => relCount rest
  | Op.queryInterface _ :: rest => relCount rest

/-- 2^31 `AddRef` calls followed by one `Release`: enough increments to
wrap the 32-bit reference count. -/
def overflowOps : List Op := List.replicate (2 ^ 31) Op.addRef ++ [Op.release]

/-! ### Arithmetic of the 32-bit count -/

theorem Long.ext {a b : Long} (h : a.val = b.val) : a = b := by
  cases a; cases b; cases h; rfl

theorem wrap32_eq_self (n : Int) (h1 : -2 ^ 31 ≤ n) (h2 : n < 2 ^ 31) : wrap32 n = n := by
  unfold wrap32; omega

theorem wrap32_add_left (a b : Int) : wrap32 (wrap32 a + b) = wrap32 (a + b) := by
  unfold wrap32; omega

theorem Long.add_val (a b : Long) : (a + b).val = wrap32 (a.val + b.val) := rfl

theorem Long.sub_val (a b : Long) : (a - b).val = wrap32 (a.val - b.val) := rfl

theorem Long.lt_iff (a b : Long) : a < b ↔ a.val < b.val := Iff.rfl

theorem Long.ofInt_val (n : Int) : (Long.ofInt n).val = wrap32 n := rfl

theorem Long.zero_val : (0 : Long).val = 0 := by decide

theorem Long.one_val : (1 : Long).val = 1 := by decide

theorem construct_m_cReferences (R : Int) : (construct R).m_cReferences = 1 := rfl

/-! ### Counting lemmas -/

theorem relCount_cons_addRef (rest : List Op) :
    relCount (Op.addRef :: rest) = relCount rest := rfl

theorem relCount_cons_release (rest : List Op) :
    relCount (Op.release :: rest) = 1 + relCount rest := rfl

theorem relCount_cons_qi (riid : IID) (rest : List Op) :
    relCount (Op.queryInterface riid :: rest) = relCount rest := rfl

theorem incCount_cons_addRef (rest : List Op) :
    incCount (Op.addRef :: rest) = 1 + incCount rest := rfl

theorem incCount_cons_release (rest : List Op) :
    incCount (Op.release :: rest) = incCount rest := rfl

theorem incCount_cons_qi (riid : IID) (rest : List Op) :
    incCount (Op.queryInterface riid :: rest) =
      (if qiSucceeds riid then 1 else 0) + incCount rest := rfl

theorem incCount_cons_qi_true (riid : IID) (rest : List Op) (h : qiSucceeds riid = true) :
    incCount (Op.queryInterface riid :: rest) = 1 + incCount rest := by
  simp [incCount_cons_qi, h]

theorem incCount_cons_qi_false (riid : IID) (rest : List Op) (h : qiSucceeds riid = false) :
    incCount (Op.queryInterface riid :: rest) = incCount rest := by
  simp [incCount_cons_qi, h]

theorem incCount_nonneg (ops : List Op) : 0 ≤ incCount ops := by
  induction ops with
  | nil => simp [incCount]
  | cons op rest ih =>
    cases op with
    | addRef => rw [incCount_cons_addRef]; omega
    | release => rw [incCount_cons_release]; omega
    | queryInterface riid => rw [incCount_cons_qi]; split <;> omega

theorem relCount_append (l1 l2 : List Op) :
    relCount (l1 ++ l2) = relCount l1 + relCount l2 := by
  induction l1 with
  | nil => simp [relCount]
  | cons op r ih =>
    cases op with
    | addRef => rw [List.cons_append, relCount_cons_addRef, relCount_cons_addRef, ih]
    | release =>
      rw [List.cons_append, relCount_cons_release, relCount_cons_release, ih]
      ring
    | queryInterface riid =>
      rw [List.cons_append, relCount_cons_qi, relCount_cons_qi, ih]

theorem incCount_append (l1 l2 : List Op) :
    incCount (l1 ++ l2) = incCount l1 + incCount l2 := by
  induction l1 with
  | nil => simp [incCount]
  | cons op r ih =>
    cases op with
    | addRef =>
      rw [List.cons_append, incCount_cons_addRef, incCount_cons_addRef, ih]
      ring
    | release => rw [List.cons_append, incCount_cons_release, incCount_cons_release, ih]
    | queryInterface riid =>
      rw [List.cons_append, incCount_cons_qi, incCount_cons_qi, ih]
      ring

theorem relCount_replicate_addRef (k : Nat) :
    relCount (List.replicate k Op.addRef) = 0 := by
  induction k with
  | zero => rfl
  | succ k ih => rw [List.replicate_succ, relCount_cons_addRef, ih]

theorem incCount_replicate_addRef (k : Nat) :
    incCount (List.replicate k Op.addRef) = k := by
  induction k with
  | zero => rfl
  | succ k ih =>
    rw [List.replicate_succ, incCount_cons_addRef, ih]
    push_cast
    ring

/-! ### Step and run lemmas -/

theorem runOps_cons (op : Op) (rest : List Op) (s : ExtState) :
    runOps (op :: rest) s = runOps rest (stepOp op s) := rfl

theorem runOps_append (l1 l2 : List Op) : ∀ s : ExtState,
    runOps (l1 ++ l2) s = runOps l2 (runOps l1 s) := by
  induction l1 with
  | nil => intro s; rfl
  | cons op r ih =>
    intro s
    rw [List.cons_append, runOps_cons, runOps_cons, ih]

theorem stepOp_addRef_eq (s : ExtState) :
    stepOp Op.addRef s = { s with m_cReferences := s.m_cReferences + 1 } := rfl

theorem stepOp_release_eq (s : ExtState) :
    stepOp Op.release s =
      if 0 < s.m_cReferences - 1 then { s with m_cReferences := s.m_cReferences - 1 }
      else destructor { s with m_cReferences := s.m_cReferences - 1 } := by
  by_cases h : 0 < s.m_cReferences - 1 <;> simp [stepOp, Release, h]

theorem stepOp_qi_eq (riid : IID) (s : ExtState) :
    stepOp (Op.queryInterface riid) s =
      if qiSucceeds riid then { s with m_cReferences := s.m_cReferences + 1 } else s := by
  cases riid <;> rfl

/-- Running `k` `AddRef` calls in a row wraps `k` into the count in one
go: iterated wrapping increments equal one wrapped addition. -/
theorem runOps_replicate_addRef (k : Nat) : ∀ s : ExtState,
    runOps (List.replicate k Op.addRef) s =
      { s with m_cReferences := Long.ofInt (s.m_cReferences.val + k) } := by
  induction k with
  | zero =>
    intro s
    have h0 : Long.ofInt (s.m_cReferences.val + ((0 : Nat) : Int)) = s.m_cReferences := by
      apply Long.ext
      rw [Long.ofInt_val]
      have hb := s.m_cReferences.bounds
      have hz : s.m_cReferences.val + ((0 : Nat) : Int) = s.m_cReferences.val := by
        push_cast
        ring
      rw [hz]
      exact wrap32_eq_self _ hb.1 hb.2
    rw [List.replicate_zero, runOps, h0]
  | succ k ih =>
    intro s
    rw [List.replicate_succ, runOps_cons, stepOp_addRef_eq, ih]
    dsimp only
    congr 1
    apply Long.ext
    rw [Long.ofInt_val, Long.ofInt_val, Long.add_val, Long.one_val, wrap32_add_left]
    congr 1
    push_cast
    ring

/-- Main lifetime invariant.  Run any call sequence from a live state whose
32-bit count is positive, under two side conditions: before each call the
releases performed so far have not yet exhausted the count (no
use-after-free), and the initial count plus all increments stays below
2^31 (the count never overflows).  Then: the object ends destroyed iff the
releases exactly exhaust the initial count plus all increments;
destruction can only come from a trailing `Release`; and while alive the
count tracks increments minus releases and no other field changes.  On
destruction the engine reference is released exactly once and nulled. -/
theorem runOps_spec (ops : List Op) : ∀ s : ExtState,
    s.destroyed = false → 0 < s.m_cReferences.val →
    s.m_cReferences.val + incCount ops < 2 ^ 31 →
    (∀ n, n < ops.length →
      relCount (ops.take n) < s.m_cReferences.val + incCount (ops.take n)) →
    ((runOps ops s).destroyed = true ↔
      relCount ops = s.m_cReferences.val + incCount ops) ∧
    ((runOps ops s).destroyed = false →
      (runOps ops s).m_cReferences.val =
        s.m_cReferences.val + incCount ops - relCount ops ∧
      (runOps ops s).engineRefs = s.engineRefs ∧
      (runOps ops s).m_pEngine = s.m_pEngine ∧
      (runOps ops s).m_sczBundleExtensionDataPath = s.m_sczBundleExtensionDataPath) ∧
    ((runOps ops s).destroyed = true →
      (runOps ops s).m_pEngine = false ∧
      (s.m_pEngine = true → (runOps ops s).engineRefs = s.engineRefs - 1) ∧
      ∃ pre, ops = pre ++ [Op.release]) := by
  induction ops with
  | nil =>
    intro s halive hpos _hbound _hlive
    refine ⟨?_, ?_, ?_⟩
    · rw [runOps, halive]
      simp only [relCount, incCount]
      constructor
      · intro h; exact absurd h (by simp)
      · intro h; exfalso; omega
    · intro _
      rw [runOps]
      simp only [relCount, incCount]
      refine ⟨by omega, by trivial, by trivial, by trivial⟩
    · intro hd
      rw [runOps] at hd
      rw [halive] at hd
      exact absurd hd (by simp)
  | cons op rest ih =>
    intro s halive hpos hbound hlive
    have hNN := incCount_nonneg rest
    have hsb := s.m_cReferences.bounds
    cases op with
    | addRef =>
      rw [incCount_cons_addRef] at hbound
      have hval : ({ s with m_cReferences := s.m_cReferences + 1 } : ExtState).m_cReferences.val
          = s.m_cReferences.val + 1 := by
        dsimp only
        rw [Long.add_val, Long.one_val]
        exact wrap32_eq_self _ (by omega) (by omega)
      have hstep : runOps (Op.addRef :: rest) s =
          runOps rest { s with m_cReferences := s.m_cReferences + 1 } := rfl
      have hlive' : ∀ n, n < rest.length →
          relCount (rest.take n) <
            ({ s with m_cReferences := s.m_cReferences + 1 } : ExtState).m_cReferences.val +
              incCount (rest.take n) := by
        intro n hn
        have h1 := hlive (n + 1) (by simpa using Nat.succ_lt_succ hn)
        rw [List.take_succ_cons, relCount_cons_addRef, incCount_cons_addRef] at h1
        rw [hval]
        omega
      have ih' := ih { s with m_cReferences := s.m_cReferences + 1 }
        halive (by rw [hval]; omega) (by rw [hval]; omega) hlive'
      rw [hval] at ih'
      rw [hstep]
      rw [relCount_cons_addRef, incCount_cons_addRef]
      refine ⟨?_, ?_, ?_⟩
      · rw [ih'.1]
        omega
      · intro hnd
        obtain ⟨hc, he, hp, hd⟩ := ih'.2.1 hnd
        refine ⟨?_, he, hp, hd⟩
        rw [hc]
        omega
      · intro hd
        obtain ⟨hp, he, pre, hpre⟩ := ih'.2.2 hd
        exact ⟨hp, he, Op.addRef :: pre, by simp [hpre]⟩
    | queryInterface riid =>
      cases hq : qiSucceeds riid with
      | true =>
        rw [incCount_cons_qi_true _ _ hq] at hbound
        have hval : ({ s with m_cReferences := s.m_cReferences + 1 } : ExtState).m_cReferences.val
            = s.m_cReferences.val + 1 := by
          dsimp only
          rw [Long.add_val, Long.one_val]
          exact wrap32_eq_self _ (by omega) (by omega)
        have hstep : runOps (Op.queryInterface riid :: rest) s =
            runOps rest { s with m_cReferences := s.m_cReferences + 1 } := by
          rw [runOps_cons, stepOp_qi_eq, hq, if_pos rfl]
        have hlive' : ∀ n, n < rest.length →
            relCount (rest.take n) <
              ({ s with m_cReferences := s.m_cReferences + 1 } : ExtState).m_cReferences.val +
                incCount (rest.take n) := by
          intro n hn
          have h1 := hlive (n + 1) (by simpa using Nat.succ_lt_succ hn)
          rw [List.take_succ_cons, relCount_cons_qi, incCount_cons_qi_true _ _ hq] at h1
          rw [hval]
          omega
        have ih' := ih { s with m_cReferences := s.m_cReferences + 1 }
          halive (by rw [hval]; omega) (by rw [hval]; omega) hlive'
        rw [hval] at ih'
        rw [hstep]
        rw [relCount_cons_qi, incCount_cons_qi_true _ _ hq]
        refine ⟨?_, ?_, ?_⟩
        · rw [ih'.1]
          omega
        · intro hnd
          obtain ⟨hc, he, hp, hd⟩ := ih'.2.1 hnd
          refine ⟨?_, he, hp, hd⟩
          rw [hc]
          omega
        · intro hd
          obtain ⟨hp, he, pre, hpre⟩ := ih'.2.2 hd
          exact ⟨hp, he, Op.queryInterface riid :: pre, by simp [hpre]⟩
      | false =>
        rw [incCount_cons_qi_false _ _ hq] at hbound
        have hstep : runOps (Op.queryInterface riid :: rest) s = runOps rest s := by
          rw [runOps_cons, stepOp_qi_eq, hq, if_neg (by simp)]
        have hlive' : ∀ n, n < rest.length →
            relCount (rest.take n) < s.m_cReferences.val + incCount (rest.take n) := by
          intro n hn
          have h1 := hlive (n + 1) (by simpa using Nat.succ_lt_succ hn)
          rw [List.take_succ_cons, relCount_cons_qi, incCount_cons_qi_false _ _ hq] at h1
          omega
        have ih' := ih s halive hpos hbound hlive'
        rw [hstep]
        rw [relCount_cons_qi, incCount_cons_qi_false _ _ hq]
        refine ⟨?_, ?_, ?_⟩
        · exact ih'.1
        · intro hnd
          exact ih'.2.1 hnd
        · intro hd
          obtain ⟨hp, he, pre, hpre⟩ := ih'.2.2 hd
          exact ⟨hp, he, Op.queryInterface riid :: pre, by simp [hpre]⟩
    | release =>
      rw [incCount_cons_release] at hbound
      have hsub : (s.m_cReferences - 1).val = s.m_cReferences.val - 1 := by
        rw [Long.sub_val, Long.one_val]
        exact wrap32_eq_self _ (by omega) (by omega)
      by_cases hl : 0 < s.m_cReferences - 1
      · have hl' : 0 < s.m_cReferences.val - 1 := by
          rw [Long.lt_iff, Long.zero_val, hsub] at hl
          exact hl
        have hval : ({ s with m_cReferences := s.m_cReferences - 1 } : ExtState).m_cReferences.val
            = s.m_cReferences.val - 1 := by
          dsimp only
          exact hsub
        have hstep : runOps (Op.release :: rest) s =
            runOps rest { s with m_cReferences := s.m_cReferences - 1 } := by
          rw [runOps_cons, stepOp_release_eq, if_pos hl]
        have hlive' : ∀ n, n < rest.length →
            relCount (rest.take n) <
              ({ s with m_cReferences := s.m_cReferences - 1 } : ExtState).m_cReferences.val +
                incCount (rest.take n) := by
          intro n hn
          have h1 := hlive (n + 1) (by simpa using Nat.succ_lt_succ hn)
          rw [List.take_succ_cons, relCount_cons_release, incCount_cons_release] at h1
          rw [hval]
          omega
        have ih' := ih { s with m_cReferences := s.m_cReferences - 1 }
          halive (by rw [hval]; omega) (by rw [hval]; omega) hlive'
        rw [hval] at ih'
        rw [hstep]
        rw [relCount_cons_release, incCount_cons_release]
        refine ⟨?_, ?_, ?_⟩
        · rw [ih'.1]
          omega
        · intro hnd
          obtain ⟨hc, he, hp, hd⟩ := ih'.2.1 hnd
          refine ⟨?_, he, hp, hd⟩
          rw [hc]
          omega
        · intro hd
          obtain ⟨hp, he, pre, hpre⟩ := ih'.2.2 hd
          exact ⟨hp, he, Op.release :: pre, by simp [hpre]⟩
      · have hl' : ¬0 < s.m_cReferences.val - 1 := by
          rw [Long.lt_iff, Long.zero_val, hsub] at hl
          exact hl
        have hone : s.m_cReferences.val = 1 := by omega
        have hrest : rest = [] := by
          cases rest with
          | nil => rfl
          | cons r rs =>
            exfalso
            have h1 := hlive 1 (by simp)
            rw [List.take_succ_cons, List.take_zero, relCount_cons_release,
              incCount_cons_release] at h1
            simp only [relCount, incCount] at h1
            omega
        subst hrest
        have hrun : runOps [Op.release] s =
            destructor { s with m_cReferences := s.m_cReferences - 1 } := by
          rw [runOps_cons, stepOp_release_eq, if_neg hl]
          rfl
        rw [hrun]
        refine ⟨?_, ?_, ?_⟩
        · simp only [destructor, relCount, incCount]
          constructor
          · intro _; omega
          · intro _; trivial
        · intro hd
          simp [destructor] at hd
        · intro _
          refine ⟨rfl, ?_, [], rfl⟩
          intro hm
          simp only [destructor, hm, if_pos]

/-! ### Claims -/

/-- Claim C1: `Release` decrements the reference count; if the resulting
count is positive it returns that count and the object is not destroyed;
if the count reaches zero the destructor runs (the engine reference is
released and nulled, the data path is freed) and zero is returned. -/
theorem release_spec (s : ExtState) (halive : s.destroyed = false)
    (heng : s.m_pEngine = true) (hpos : 0 < s.m_cReferences) :
    (0 < s.m_cReferences - 1 →
      Release s = (s.m_cReferences - 1, { s with m_cReferences := s.m_cReferences - 1 }) ∧
      (Release s).2.destroyed = false) ∧
    (s.m_cReferences - 1 = 0 →
      (Release s).1 = 0 ∧
      (Release s).2.destroyed = true ∧
      (Release s).2.engineRefs = s.engineRefs - 1 ∧
      (Release s).2.m_pEngine = false ∧
      (Release s).2.m_sczBundleExtensionDataPath = none) := by
  constructor
  · intro h
    simp [Release, h, halive]
  · intro h
    have h' : ¬0 < s.m_cReferences - 1 := by
      rw [h, Long.lt_iff, Long.zero_val]
      omega
    simp [Release, h', destructor, heng]

theorem release_spec_witness :
    (0 < (construct 0).m_cReferences - 1 →
      Release (construct 0) =
        ((construct 0).m_cReferences - 1,
          { construct 0 with m_cReferences := (construct 0).m_cReferences - 1 }) ∧
      (Release (construct 0)).2.destroyed = false) ∧
    ((construct 0).m_cReferences - 1 = 0 →
      (Release (construct 0)).1 = 0 ∧
      (Release (construct 0)).2.destroyed = true ∧
      (Release (construct 0)).2.engineRefs = (construct 0).engineRefs - 1 ∧
      (Release (construct 0)).2.m_pEngine = false ∧
      (Release (construct 0)).2.m_sczBundleExtensionDataPath = none) :=
  release_spec (construct 0) rfl rfl (by decide)

/-- Claim C3: for every capability identifier and every object state,
`QueryInterface` with a null output-slot pointer returns `E_INVALIDARG`,
leaves the state (reference count and all fields) unchanged, and writes
no slot. -/
theorem queryInterface_nullSlot (s : ExtState) (riid : IID) :
    QueryInterface s none riid = (HRESULT.E_INVALIDARG, s, none) := rfl

/-- Claim C4: with a non-null output slot, `QueryInterface` for
`IBundleExtension` or `IUnknown` returns `S_OK`, stores a typed self-handle
in the slot, and increments only the reference count (by exactly 1); any
other capability returns `E_NOINTERFACE`, leaves the slot cleared to empty,
and changes nothing in the state. -/
theorem queryInterface_spec (s : ExtState) (v : Option Handle) (riid : IID) :
    (qiSucceeds riid = true →
      ∃ h : Handle,
        QueryInterface s (some v) riid =
          (HRESULT.S_OK, { s with m_cReferences := s.m_cReferences + 1 }, some (some h))) ∧
    (qiSucceeds riid = false →
      QueryInterface s (some v) riid = (HRESULT.E_NOINTERFACE, s, some none)) := by
  cases riid with
  | IID_IBundleExtension =>
    exact ⟨fun _ => ⟨Handle.asIBundleExtension, rfl⟩, fun h => by simp [qiSucceeds] at h⟩
  | IID_IUnknown =>
    exact ⟨fun _ => ⟨Handle.asIUnknown, rfl⟩, fun h => by simp [qiSucceeds] at h⟩
  | other c =>
    refine ⟨fun h => by simp [qiSucceeds] at h, fun _ => ?_⟩
    simp [QueryInterface]

theorem queryInterface_spec_witness :
    (∃ h : Handle,
      QueryInterface (construct 0) (some none) IID.IID_IUnknown =
        (HRESULT.S_OK,
          { construct 0 with m_cReferences := (construct 0).m_cReferences + 1 },
          some (some h))) ∧
    QueryInterface (construct 0) (some none) (IID.other 3) =
      (HRESULT.E_NOINTERFACE, construct 0, some none) :=
  ⟨(queryInterface_spec (construct 0) none IID.IID_IUnknown).1 rfl,
   (queryInterface_spec (construct 0) none (IID.other 3)).2 rfl⟩

/-- Claim C5: for every input, the default `Search` and
`BundleExtensionProc` return `E_NOTIMPL` and leave the object state
(reference count, engine reference, data path) entirely unchanged. -/
theorem search_proc_notimpl (s : ExtState) (wzId wzVariable : String)
    (message : Nat) (pvArgs pvResults pvContext : Option Nat) :
    Search s wzId wzVariable = (HRESULT.E_NOTIMPL, s) ∧
    BundleExtensionProc s message pvArgs pvResults pvContext = (HRESULT.E_NOTIMPL, s) :=
  ⟨rfl, rfl⟩

/-- Claim C6: `Initialize` with a non-null create-args structure
deep-copies the data-path string: when the copy succeeds the object's
stored data path becomes exactly that string and `S_OK` is returned; when
the copy fails the allocation-failure status is returned and the state is
unchanged. -/
theorem initialize_spec (allocOk : Bool) (s : ExtState)
    (args : BUNDLE_EXTENSION_CREATE_ARGS) :
    Initialize allocOk s (some args) =
      some (if allocOk
        then (HRESULT.S_OK,
          { s with m_sczBundleExtensionDataPath := some args.wzBundleExtensionDataPath })
        else (HRESULT.E_OUTOFMEMORY, s)) := by
  cases allocOk <;> rfl

/-- Claim C9: `Initialize` dereferences its create-args pointer with no
null check, so a null create-args pointer has no defined result in the
model (`none`), while `QueryInterface` does guard its nullable pointer and
returns the defined result `E_INVALIDARG`. -/
theorem initialize_null_undefined (allocOk : Bool) (s : ExtState) (riid : IID) :
    Initialize allocOk s none = none ∧
    QueryInterface s none riid = (HRESULT.E_INVALIDARG, s, none) :=
  ⟨rfl, rfl⟩

/-- Claim C10: the status and the slot outcome of `QueryInterface` depend
only on its arguments (whether the slot pointer is null, the slot's prior
contents, and the requested capability), never on the object's state: two
arbitrary states yield the same status and the same slot contents. -/
theorem queryInterface_state_independent (s₁ s₂ : ExtState)
    (ppvObject : Option (Option Handle)) (riid : IID) :
    (QueryInterface s₁ ppvObject riid).1 = (QueryInterface s₂ ppvObject riid).1 ∧
    (QueryInterface s₁ ppvObject riid).2.2 = (QueryInterface s₂ ppvObject riid).2.2 := by
  cases ppvObject with
  | none => exact ⟨rfl, rfl⟩
  | some v => cases riid <;> exact ⟨rfl, rfl⟩

/-- Claim C2 (counterexample): the claim fails on the code because
`m_cReferences` is a 32-bit `long` and `InterlockedIncrement` wraps on
overflow.  In the sequence of 2^31 `AddRef` calls followed by one
`Release` — every call made while the object is alive, as the first
conjunct checks — the count wraps negative, so the single `Release` sees a
non-positive decremented count and destroys the object (third conjunct),
although the number of `Release` calls (1) differs from the total number
of increments (1 at construction + 2^31, second conjunct).  Hence "the
object is destroyed only by the Release call at which the number of
Release calls equals the total number of increments" is false as stated. -/
theorem refcount_overflow_ctrex :
    (∀ n, n < overflowOps.length →
      relCount (overflowOps.take n) < 1 + incCount (overflowOps.take n)) ∧
    relCount overflowOps ≠ 1 + incCount overflowOps ∧
    (runOps overflowOps (construct 0)).destroyed = true := by
  have hrel : relCount overflowOps = 1 := by
    rw [overflowOps, relCount_append, relCount_replicate_addRef]
    decide
  have hinc : incCount overflowOps = 2 ^ 31 := by
    rw [overflowOps, incCount_append, incCount_replicate_addRef]
    norm_num [incCount]
  refine ⟨?_, ?_, ?_⟩
  · intro n hn
    have hlen : overflowOps.length = 2 ^ 31 + 1 := by
      rw [overflowOps, List.length_append, List.length_replicate, List.length_cons,
        List.length_nil]
    rw [hlen] at hn
    have hn' : n ≤ (List.replicate (2 ^ 31) Op.addRef).length := by
      rw [List.length_replicate]
      omega
    rw [overflowOps, List.take_append_of_le_length hn',
      List.take_replicate, relCount_replicate_addRef, incCount_replicate_addRef]
    omega
  · rw [hrel, hinc]
    omega
  · rw [overflowOps, runOps_append, runOps_replicate_addRef, runOps_cons,
      stepOp_release_eq, if_neg (by decide)]
    rfl

/-- Claim C2 (amended): for every sequence of `AddRef`, `Release`, and
`QueryInterface` calls executed on one object from construction (each call
made while the object is still alive) whose total number of increments —
the 1 implicit at construction, plus one per `AddRef`, plus one per
successful `QueryInterface` — stays below 2^31, so the 32-bit count never
overflows, the object is destroyed exactly once, and only by the `Release`
call at which the number of `Release` calls equals the total number of
increments; until then it stays alive with the count equal to increments
minus releases. -/
theorem refcount_lifetime_amended (R : Int) (ops : List Op)
    (hbound : 1 + incCount ops < 2 ^ 31)
    (hlive : ∀ n, n < ops.length →
      relCount (ops.take n) < 1 + incCount (ops.take n)) :
    ((runOps ops (construct R)).destroyed = true ↔
      relCount ops = 1 + incCount ops) ∧
    ((runOps ops (construct R)).destroyed = true →
      ∃ pre, ops = pre ++ [Op.release]) ∧
    ((runOps ops (construct R)).destroyed = false →
      (runOps ops (construct R)).m_cReferences.val = 1 + incCount ops - relCount ops) := by
  have hcv : (construct R).m_cReferences.val = 1 := by
    rw [construct_m_cReferences, Long.one_val]
  have h := runOps_spec ops (construct R) rfl (by rw [hcv]; omega) (by rw [hcv]; omega)
    (by intro n hn; rw [hcv]; exact hlive n hn)
  rw [hcv] at h
  exact ⟨h.1, fun hd => (h.2.2 hd).2.2, fun hnd => (h.2.1 hnd).1⟩

theorem refcount_lifetime_amended_witness :
    1 + incCount [Op.addRef, Op.release, Op.release] < 2 ^ 31 ∧
    (∀ n, n < ([Op.addRef, Op.release, Op.release] : List Op).length →
      relCount (([Op.addRef, Op.release, Op.release] : List Op).take n) <
        1 + incCount (([Op.addRef, Op.release, Op.release] : List Op).take n)) ∧
    (((runOps [Op.addRef, Op.release, Op.release] (construct 0)).destroyed = true ↔
        relCount [Op.addRef, Op.release, Op.release] =
          1 + incCount [Op.addRef, Op.release, Op.release]) ∧
      ((runOps [Op.addRef, Op.release, Op.release] (construct 0)).destroyed = true →
        ∃ pre, ([Op.addRef, Op.release, Op.release] : List Op) = pre ++ [Op.release]) ∧
      ((runOps [Op.addRef, Op.release, Op.release] (construct 0)).destroyed = false →
        (runOps [Op.addRef, Op.release, Op.release] (construct 0)).m_cReferences.val =
          1 + incCount [Op.addRef, Op.release, Op.release] -
            relCount [Op.addRef, Op.release, Op.release])) :=
  ⟨by decide, by decide,
    refcount_lifetime_amended 0 [Op.addRef, Op.release, Op.release] (by decide) (by decide)⟩

/-- Claim C7: the engine reference is balanced over the object's lifetime:
construction takes the engine's count from `R` to `R + 1` and stores a
non-null engine reference; in the scenario AddRef, AddRef, Release,
Release, Release the first two releases leave the object alive with count
1, and the third destroys it and returns the engine count to `R`. -/
theorem engine_balanced (R : Int) :
    (construct R).engineRefs = R + 1 ∧
    (construct R).m_pEngine = true ∧
    (runOps [Op.addRef, Op.addRef, Op.release, Op.release]
      (construct R)).destroyed = false ∧
    (runOps [Op.addRef, Op.addRef, Op.release, Op.release]
      (construct R)).m_cReferences = 1 ∧
    (runOps [Op.addRef, Op.addRef, Op.release, Op.release, Op.release]
      (construct R)).destroyed = true ∧
    (runOps [Op.addRef, Op.addRef, Op.release, Op.release, Op.release]
      (construct R)).engineRefs = R := by
  have s1 : runOps [Op.addRef, Op.addRef, Op.release, Op.release] (construct R) =
      { m_cReferences := 1, m_pEngine := true, m_sczBundleExtensionDataPath := none,
        engineRefs := R + 1, destroyed := false } := rfl
  have s2 : runOps [Op.addRef, Op.addRef, Op.release, Op.release, Op.release] (construct R) =
      { m_cReferences := 0, m_pEngine := false, m_sczBundleExtensionDataPath := none,
        engineRefs := R + 1 - 1, destroyed := true } := rfl
  refine ⟨rfl, rfl, by rw [s1], by rw [s1], by rw [s2], ?_⟩
  rw [s2]
  dsimp only
  omega

/-- Claim C8: a failed `QueryInterface` (null output slot, or unsupported
capability) and a failed `Initialize` leave the object state completely
unchanged — same reference count, same engine reference, same data path —
so any later call sequence (in particular the releases leading to
destruction) behaves exactly as if the failed call had not happened. -/
theorem failed_calls_harmless (s : ExtState) (riid : IID)
    (hq : qiSucceeds riid = false) (args : BUNDLE_EXTENSION_CREATE_ARGS)
    (ops : List Op) :
    (QueryInterface s none riid).2.1 = s ∧
    (QueryInterface s (some none) riid).2.1 = s ∧
    Initialize false s (some args) = some (HRESULT.E_OUTOFMEMORY, s) ∧
    runOps ops ((QueryInterface s (some none) riid).2.1) = runOps ops s := by
  have h2 : (QueryInterface s (some none) riid).2.1 = s := by
    cases riid with
    | IID_IBundleExtension => simp [qiSucceeds] at hq
    | IID_IUnknown => simp [qiSucceeds] at hq
    | other c => rfl
  exact ⟨rfl, h2, rfl, by rw [h2]⟩

theorem failed_calls_harmless_witness :
    qiSucceeds (IID.other 7) = false ∧
    ((QueryInterface (construct 0) none (IID.other 7)).2.1 = construct 0 ∧
      (QueryInterface (construct 0) (some none) (IID.other 7)).2.1 = construct 0 ∧
      Initialize false (construct 0) (some ⟨"path"⟩) =
        some (HRESULT.E_OUTOFMEMORY, construct 0) ∧
      runOps [Op.release]
          ((QueryInterface (construct 0) (some none) (IID.other 7)).2.1) =
        runOps [Op.release] (construct 0)) :=
  ⟨rfl, failed_calls_harmless (construct 0) (IID.other 7) rfl ⟨"path"⟩ [Op.release]⟩

end Bextutil
